import Mathlib

/-!
# Verification of the foodly voice-driven cooking session controller

Shallow embedding of the speech/narration core of the repository:

* `useSpeechRecognition`'s `recognition.onresult` handler (phrase matching,
  throttling, transcript handling) and `recognition.onerror` / `onend`
  (error classification, restart intent) from
  `frontend/src/hooks/useSpeech.ts`;
* `useSpeechSynthesis` (`speak` / `stop` / `speakBrowser`, the dual
  audio-clip / browser-synthesis backends and their fallback wiring) from
  the same file, together with an operational model of the platform events
  (media element `onplay`/`onended`/`onerror`, `play()` promise resolution
  and rejection, utterance `onstart`/`onend`/`onerror`);
* the `StepNavigator` auto-play controller (the auto-play `useEffect`, the
  voice command actions, the manual navigation buttons), modelled with the
  React semantics the component relies on: per-render closure capture,
  effect re-runs on dependency change, and un-cancelled `setTimeout`
  timers.

JavaScript machine integers do not occur on any modelled path; timestamps
(`Date.now()`) are modelled as `Nat`, with JavaScript's `now - last < 400`
on possibly-decreasing clocks agreeing with truncated `Nat` subtraction
(both sides evaluate to a fire-suppressing "true" when `now ≤ last`).
-/

namespace Foodly

/-! ## String helpers: JavaScript `String.prototype.includes`

`hay.includes(needle)` is a contiguous-substring test.  It is embedded by
direct recursion on the character list of the haystack. -/

/-- `listStarts hay needle` : does `hay` start with `needle`?
(JS `startsWith` on character lists; the base of the `includes` search.) -/
def listStarts : List Char → List Char → Bool
  | _, [] => true
  | [], _ :: _ => false
  | a :: hs, b :: ns => a == b && listStarts hs ns

/-- `listHasSub needle hay` : does `needle` occur contiguously in `hay`? -/
def listHasSub (needle : List Char) : List Char → Bool
  | [] => listStarts [] needle
  | c :: hs => listStarts (c :: hs) needle || listHasSub needle hs

/-- JS `hay.includes(needle)`. -/
def strIncludes (hay needle : String) : Bool :=
  listHasSub needle.data hay.data

/-- JS `String.prototype.toLowerCase`, embedded as a character-wise map
(the transcripts at issue are plain text; locale-specific multi-character
lowerings do not arise). -/
def jsToLower (s : String) : String :=
  ⟨s.data.map Char.toLower⟩

/-- JS whitespace as removed by `String.prototype.trim` (the ASCII cases;
the exotic Unicode space code points do not occur in engine transcripts). -/
def isJsWs (c : Char) : Bool :=
  c = ' ' || c = '\t' || c = '\n' || c = '\r' || c = '\x0b' || c = '\x0c'

/-- JS `String.prototype.trim`: strip whitespace from both ends. -/
def jsTrim (s : String) : String :=
  ⟨((s.data.dropWhile isJsWs).reverse.dropWhile isJsWs).reverse⟩

theorem listStarts_iff (needle : List Char) :
    ∀ hay : List Char, listStarts hay needle = true ↔ ∃ t, hay = needle ++ t := by
  induction needle with
  | nil =>
    intro hay
    simp [listStarts]
  | cons b ns ih =>
    intro hay
    cases hay with
    | nil => simp [listStarts]
    | cons a hs =>
      simp only [listStarts, Bool.and_eq_true, beq_iff_eq, ih hs, List.cons_append,
        List.cons.injEq]
      constructor
      · rintro ⟨rfl, t, rfl⟩; exact ⟨t, rfl, rfl⟩
      · rintro ⟨t, rfl, rfl⟩; exact ⟨rfl, t, rfl⟩

theorem listHasSub_iff (needle : List Char) :
    ∀ hay : List Char, listHasSub needle hay = true ↔ ∃ p t, hay = p ++ needle ++ t := by
  intro hay
  induction hay with
  | nil =>
    simp only [listHasSub, listStarts_iff]
    constructor
    · rintro ⟨t, h⟩; exact ⟨[], t, h⟩
    · rintro ⟨p, t, h⟩
      rcases List.append_eq_nil.mp (List.append_eq_nil.mp h.symm).1 with ⟨rfl, rfl⟩
      exact ⟨t, h⟩
  | cons c hs ih =>
    simp only [listHasSub, Bool.or_eq_true, listStarts_iff, ih]
    constructor
    · rintro (⟨t, h⟩ | ⟨p, t, h⟩)
      · exact ⟨[], t, by simpa using h⟩
      · exact ⟨c :: p, t, by simp [h]⟩
    · rintro ⟨p, t, h⟩
      cases p with
      | nil => exact Or.inl ⟨t, by simpa using h⟩
      | cons x p =>
        simp only [List.cons_append, List.cons.injEq] at h
        exact Or.inr ⟨p, t, h.2⟩

/-- `strIncludes` is exactly the contiguous-substring relation. -/
theorem strIncludes_iff (hay needle : String) :
    strIncludes hay needle = true ↔ ∃ p t, hay.data = p ++ needle.data ++ t := by
  exact listHasSub_iff needle.data hay.data

/-! ## The voice-command phrase matcher (`recognition.onresult`)

From `frontend/src/hooks/useSpeech.ts`, lines 77–121.  A `Command` is the
`VoiceCommand` record; its `action` has no bearing on matching, so a fired
command is reported by its index in the registered list. -/

/-- The phrase list of one `VoiceCommand` (the `action` is represented by
the command's index in the registered list). -/
structure Command where
  phrases : List String

/-- Does `command` match: `lowerTranscript.includes(phrase.toLowerCase())`
for some phrase of the command (the inner `for` loop). -/
def phraseHits (lower : String) (c : Command) : Bool :=
  c.phrases.any (fun p => strIncludes lower (jsToLower p))

/-- The outer `for` loop over `commandsRef.current`: index of the first
command one of whose phrases occurs in the transcript. -/
def firstMatch (lower : String) : List Command → Option Nat
  | [] => none
  | c :: cs => if phraseHits lower c then some 0 else (firstMatch lower cs).map (· + 1)

/-- Mutable state read and written by the `onresult` handler:
`transcript` (React state) and `lastCommandAtRef`. -/
structure RecState where
  transcript : String
  lastCommandAt : Nat
deriving DecidableEq

/-- Externally visible effects of one `onresult` invocation: which
command's `action()` ran (if any), and whether `recognition.stop()` was
requested (the stop that, with listening intent still true, leads to the
`onend`-driven restart that flushes the utterance buffer). -/
structure RecOut where
  fired : Option Nat
  stopRequested : Bool
deriving DecidableEq

/-- The `recognition.onresult` handler, given the combined
`finalTranscript + interimTranscript` string `current` for this event and
the current `Date.now()` value `now`.  Faithful to the source:
`setTranscript(currentTranscript)` happens first; matching runs only on a
non-empty transcript; the throttle check sits at the first matching
(command, phrase) pair and abandons the whole event when within 400 ms of
the previous fire; a non-throttled match fires the action, clears the
transcript and requests `recognition.stop()`. -/
def onResult (cmds : List Command) (now : Nat) (current : String) (s : RecState) :
    RecState × RecOut :=
  let s1 : RecState := { s with transcript := current }
  if current = "" then (s1, ⟨none, false⟩)
  else
    match firstMatch (jsTrim (jsToLower current)) cmds with
    | none => (s1, ⟨none, false⟩)
    | some i =>
      if now - s1.lastCommandAt < 400 then (s1, ⟨none, false⟩)
      else ({ transcript := "", lastCommandAt := now }, ⟨some i, true⟩)

/-- Run a stream of recognition result events `(now, transcript)`,
collecting the indices of all fired command actions in order. -/
def runRec (cmds : List Command) : RecState → List (Nat × String) → RecState × List Nat
  | s, [] => (s, [])
  | s, e :: es =>
    let r := onResult cmds e.1 e.2 s
    let rest := runRec cmds r.1 es
    (rest.1, r.2.fired.toList ++ rest.2)

/-! ## Recognition error classification (`recognition.onerror` / `onend`)

From `frontend/src/hooks/useSpeech.ts`, lines 123–147. -/

/-- The recognition session's listening state: the React `isListening`
flag and the `shouldListenRef` intent that the `onend` handler consults
before restarting. -/
structure ListenState where
  isListening : Bool
  shouldListen : Bool
deriving DecidableEq

/-- The `recognition.onerror` handler: `no-speech` and `aborted` error
types are ignored; any other error type forces the listening intent off
(`setIsListening(false)` and `shouldListenRef.current = false`). -/
def onError (errorType : String) (s : ListenState) : ListenState :=
  if errorType ≠ "no-speech" ∧ errorType ≠ "aborted" then ⟨false, false⟩ else s

/-- The `recognition.onend` handler schedules an engine restart exactly
when the listening intent is still set (`shouldListenRef.current`); the
delayed callback re-checks the same intent before calling `start()`. -/
def onEndRestarts (s : ListenState) : Bool :=
  s.shouldListen

/-! ## The narration player (`useSpeechSynthesis`)

From `frontend/src/hooks/useSpeech.ts`, lines 212–325.  The player drives
two platform backends whose completion/error signals arrive as
asynchronous events:

* an `HTMLAudioElement` created per `speak(_, _, audioUrl)` call.  Its
  `onplay`, `onended`, `onerror` handlers remain attached for the
  element's life (the code never detaches them); its `play()` call returns
  a promise that resolves when playback starts and rejects on failure.
  Per the HTML media specification, calling `pause()` while a `play()`
  request is still pending rejects that pending promise with an
  `AbortError` — so the player's own `stop()` can trigger the `.catch`
  fallback of an earlier `speak`.  A load failure fires the media `error`
  event and also rejects a pending `play()` promise; the two are delivered
  back to back (`aFailLoad`).  An autoplay block rejects the promise only
  (`aFailPlayOnly`); a failure after playback started fires the `error`
  event only (`aFailMid`).  A paused element never fires `ended`.
* a `SpeechSynthesisUtterance` per `speakBrowser` call.
  `speechSynthesis.cancel()` makes the cancelled utterance report an
  `error` event, never `end`; in the source that `onerror` handler only
  clears `isSpeaking` and never invokes the completion callback, so a
  cancelled utterance is modelled as simply removed.

Callbacks (`onEnd` arguments) are identified by numeric ids; `fired`
records, in order, every id whose callback the player invoked. -/

/-- Life-cycle phase of one `HTMLAudioElement` created by `speak`. -/
inductive APhase
  | pending          -- `play()` requested, promise still pending
  | playing          -- promise resolved, `onplay` fired
  | stopped          -- paused by `stop()` after playback had started
  | stoppedRejecting -- paused by `stop()` while `play()` was pending:
                     -- the AbortError rejection of that promise is due
  | failed           -- a failure path ran (error event and/or rejection)
  | done             -- natural end reached, `onended` fired
deriving DecidableEq

/-- One audio element: the text and callback captured by its attached
`onerror` / `.catch` fallback closures, and its phase. -/
structure AudioElem where
  text : String
  cb : Option Nat
  phase : APhase
deriving DecidableEq

/-- The live `SpeechSynthesisUtterance`, with the callback captured by its
`onend` handler, and whether `onstart` has fired. -/
structure UttElem where
  text : String
  cb : Option Nat
  started : Bool
deriving DecidableEq

/-- `useSpeechSynthesis` state plus the platform objects it created:
`isSpeaking` (React state), the list of all audio elements ever created
(handlers stay attached after `audioRef` moves on), `audioRef`
(index into `audios`), the current utterance, and the log of invoked
completion callbacks. -/
structure PlayerState where
  isSpeaking : Bool
  audios : List AudioElem
  audioRef : Option Nat
  liveUtt : Option UttElem
  fired : List Nat
deriving DecidableEq

def pinit : PlayerState := ⟨false, [], none, none, []⟩

/-- Replace element `i` of the audio list using `f` (no-op out of range). -/
def modifyAudio (l : List AudioElem) (i : Nat) (f : AudioElem → AudioElem) :
    List AudioElem :=
  match l[i]? with
  | some a => l.set i (f a)
  | none => l

/-- `audioRef.current.pause(); audioRef.current.currentTime = 0` on the
current element: a pending `play()` gets its AbortError rejection queued;
a playing element is silenced (it will never fire `ended`). -/
def pauseCurrent (s : PlayerState) : PlayerState :=
  match s.audioRef with
  | none => s
  | some i =>
    { s with audios := modifyAudio s.audios i (fun a =>
        match a.phase with
        | .pending => { a with phase := .stoppedRejecting }
        | .playing => { a with phase := .stopped }
        | _ => a) }

/-- `stop()`: `speechSynthesis.cancel()` (when synthesis is supported),
then pause/reset/release the current audio element, then
`setIsSpeaking(false)`. -/
def pstop (tts : Bool) (s : PlayerState) : PlayerState :=
  let s1 := if tts then { s with liveUtt := none } else s
  let s2 := pauseCurrent s1
  { s2 with audioRef := none, isSpeaking := false }

/-- `speakBrowser(text, onEnd)`: a no-op when synthesis is unsupported;
otherwise `speechSynthesis.cancel()` (dropping any live utterance without
invoking its callback) and enqueue a fresh utterance carrying `cb` in its
`onend` handler. -/
def speakBrowser (tts : Bool) (text : String) (cb : Option Nat)
    (s : PlayerState) : PlayerState :=
  if tts then { s with liveUtt := some ⟨text, cb, false⟩ }
  else s

/-- `speak(text, onEnd, audioUrl)`: first `stop()`; with an `audioUrl`,
create a fresh audio element (its handlers capture `text` and `cb` for the
fallback) and request playback; otherwise go straight to synthesis.
(The URL-to-absolute-address resolution only affects which bytes the
platform fetches and is not modelled.) -/
def speak (tts : Bool) (text : String) (cb : Option Nat) (url : Option String)
    (s : PlayerState) : PlayerState :=
  let s1 := pstop tts s
  match url with
  | some _ =>
    { s1 with audios := s1.audios ++ [⟨text, cb, .pending⟩],
              audioRef := some s1.audios.length }
  | none => speakBrowser tts text cb s1

/-- Asynchronous platform events delivered to the player's handlers. -/
inductive PEvent
  | aPlay (i : Nat)          -- `play()` resolves; `onplay` fires
  | aEnd (i : Nat)           -- playback reaches natural end; `onended`
  | aFailLoad (i : Nat)      -- load failure: media `error` event, then
                             -- rejection of the pending `play()` promise
  | aFailPlayOnly (i : Nat)  -- `play()` rejected (e.g. autoplay blocked)
  | aFailMid (i : Nat)       -- media `error` event during playback
  | aAbort (i : Nat)         -- AbortError rejection of a `play()` that
                             -- `stop()` interrupted with `pause()`
  | uStart                   -- utterance `onstart`
  | uEnd                     -- utterance `onend`
  | uErr                     -- utterance `onerror`
deriving DecidableEq

/-- Append an invoked callback id to the log. -/
def fireCb (cb : Option Nat) (s : PlayerState) : PlayerState :=
  { s with fired := s.fired ++ cb.toList }

/-- One platform event, dispatched to the handlers the source installs.
Events whose precondition does not hold (wrong phase, no live utterance)
cannot occur and are no-ops. -/
def pstep (tts : Bool) (s : PlayerState) : PEvent → PlayerState
  | .aPlay i =>
    match s.audios[i]? with
    | some a =>
      if a.phase = .pending then
        { s with audios := modifyAudio s.audios i (fun a => { a with phase := .playing }),
                 isSpeaking := true }
      else s
    | none => s
  | .aEnd i =>
    match s.audios[i]? with
    | some a =>
      if a.phase = .playing then
        fireCb a.cb
          { s with audios := modifyAudio s.audios i (fun a => { a with phase := .done }),
                   isSpeaking := false }
      else s
    | none => s
  | .aFailLoad i =>
    match s.audios[i]? with
    | some a =>
      if a.phase = .pending then
        -- `onerror` handler, then the `.catch` of the rejected `play()`:
        -- both call `speakBrowser(text, onEnd)`
        speakBrowser tts a.text a.cb (speakBrowser tts a.text a.cb
          { s with audios := modifyAudio s.audios i (fun a => { a with phase := .failed }) })
      else s
    | none => s
  | .aFailPlayOnly i =>
    match s.audios[i]? with
    | some a =>
      if a.phase = .pending then
        speakBrowser tts a.text a.cb
          { s with audios := modifyAudio s.audios i (fun a => { a with phase := .failed }) }
      else s
    | none => s
  | .aFailMid i =>
    match s.audios[i]? with
    | some a =>
      if a.phase = .playing then
        speakBrowser tts a.text a.cb
          { s with audios := modifyAudio s.audios i (fun a => { a with phase := .failed }) }
      else s
    | none => s
  | .aAbort i =>
    match s.audios[i]? with
    | some a =>
      if a.phase = .stoppedRejecting then
        speakBrowser tts a.text a.cb
          { s with audios := modifyAudio s.audios i (fun a => { a with phase := .failed }) }
      else s
    | none => s
  | .uStart =>
    match s.liveUtt with
    | some u =>
      if u.started then s
      else { s with liveUtt := some { u with started := true }, isSpeaking := true }
    | none => s
  | .uEnd =>
    match s.liveUtt with
    | some u => fireCb u.cb { s with liveUtt := none, isSpeaking := false }
    | none => s
  | .uErr =>
    match s.liveUtt with
    | some _ => { s with liveUtt := none, isSpeaking := false }
    | none => s

/-- A step of a player run: a `speak(...)` or `stop()` call issued by the
controller, or a platform event. -/
inductive PAct
  | call (text : String) (cb : Option Nat) (url : Option String)
  | stopCall
  | env (e : PEvent)

/-- Run a sequence of player calls and platform events. -/
def prun (tts : Bool) : PlayerState → List PAct → PlayerState
  | s, [] => s
  | s, .call t cb u :: as => prun tts (speak tts t cb u s) as
  | s, .stopCall :: as => prun tts (pstop tts s) as
  | s, .env e :: as => prun tts (pstep tts s e) as

theorem prun_append (tts : Bool) (l1 l2 : List PAct) :
    ∀ s : PlayerState, prun tts s (l1 ++ l2) = prun tts (prun tts s l1) l2 := by
  induction l1 with
  | nil => intro s; rfl
  | cons a l1 ih =>
    intro s
    cases a <;> simp [prun, ih]

/-! ## The StepNavigator auto-play controller

From `StepNavigator.tsx` (`src/unnamed/part_005`, lines 163–622).  The
component's behaviour rests on React semantics the model makes explicit:

* state updates inside one event handler are batched and followed by one
  render; the auto-play `useEffect` (deps `[currentStep, isPlaying,
  autoAdvance, ttsSupported]`) re-runs after a render exactly when one of
  those dependencies changed, and it has **no cleanup function**, so
  timers it schedules are never cancelled;
* every closure reads the `const` state values of the render that created
  it.  The narration completion callback and the `setTimeout` callback it
  schedules therefore see the `isPlaying`, `currentStep`, `autoAdvance`
  values captured when the effect ran (a `Captured` record), while
  `setCurrentStep(prev => prev + 1)` inside `goToNext` updates from the
  latest value (only `goToNext`'s `currentStep < steps.length - 1` guard
  uses the captured index).

Narration is abstracted to a token holding the completion closure's
captured environment (`isSpeaking` of the synthesis hook is `true` exactly
when a narration token is live at this layer); `speakLog` records each
`readCurrentStep`-driven `speak` invocation by the step index narrated.
Steps are represented by their count `len`; `ttsSupported` is the `tts`
parameter.  The "repeat" command (narration without a completion
callback) is outside the modelled claims and omitted. -/

/-- The render-scope values captured by the auto-play effect's completion
closure and by the 3-second `setTimeout` callback. -/
structure Captured where
  isPlaying : Bool
  currentStep : Nat
  autoAdvance : Bool
deriving DecidableEq

/-- `StepNavigator` state: React state fields, the live narration token
(the completion closure's captured environment), the pending un-cancelled
`setTimeout` callbacks, the dependency snapshot of the auto-play effect's
last run, and the log of narrated step indices. -/
structure NavState where
  currentStep : Nat
  completed : List Nat
  autoAdvance : Bool
  isPlaying : Bool
  narration : Option Captured
  timers : List Captured
  prevDeps : Option (Nat × Bool × Bool)
  speakLog : List Nat
deriving DecidableEq

/-- The auto-play effect's dependency tuple
`[currentStep, isPlaying, autoAdvance]` (`ttsSupported` is constant). -/
def navDeps (s : NavState) : Nat × Bool × Bool :=
  (s.currentStep, s.isPlaying, s.autoAdvance)

/-- The body of the auto-play `useEffect`: when playing (and synthesis is
supported) narrate the current step — `readCurrentStep` speaks only when
`steps[currentStep]` exists — installing a completion closure that
captures this render's values; otherwise, when not playing but still
speaking, `stopSpeaking()`. -/
def effectBody (len : Nat) (tts : Bool) (s : NavState) : NavState :=
  if s.isPlaying && tts then
    if s.currentStep < len then
      { s with narration := some ⟨s.isPlaying, s.currentStep, s.autoAdvance⟩,
               speakLog := s.speakLog ++ [s.currentStep] }
    else s
  else if !s.isPlaying && s.narration.isSome then
    { s with narration := none }
  else s

/-- A render: run the auto-play effect when its dependencies changed since
its last run, and record the new dependency snapshot. -/
def render (len : Nat) (tts : Bool) (s : NavState) : NavState :=
  if s.prevDeps = some (navDeps s) then s
  else { effectBody len tts s with prevDeps := some (navDeps s) }

/-- `goToNext` as captured in some render: the guard compares the captured
index `cap` against `steps.length - 1`; the update
`setCurrentStep(prev => prev + 1)` increments the latest index. -/
def goToNextF (len : Nat) (cap : Nat) (s : NavState) : NavState :=
  if cap < len - 1 then { s with currentStep := s.currentStep + 1 } else s

/-- `goToPrev`, analogously. -/
def goToPrevF (cap : Nat) (s : NavState) : NavState :=
  if 0 < cap then { s with currentStep := s.currentStep - 1 } else s

/-- External events driving the controller: voice commands (from the
`voiceCommands` action list), manual controls, and the two asynchronous
continuations (narration completion, 3-second timer expiry). -/
inductive NavEvent
  | voicePlay    -- voice "play": `setIsPlaying(true)`
  | voiceStop    -- voice "stop": `setIsPlaying(false); stopSpeaking()`
  | voiceNext    -- voice "next": `setIsPlaying(false); stopSpeaking(); goToNext()`
  | voicePrev    -- voice "back": `setIsPlaying(false); stopSpeaking(); goToPrev()`
  | toggleAuto   -- settings toggle / voice "auto play": `setAutoAdvance(prev => !prev)`
  | autoOn       -- voice "turn on auto play": `setAutoAdvance(true); setIsPlaying(true)`
  | autoOff      -- voice "turn off auto play": `setAutoAdvance(false)`
  | manualNext   -- next button: `setIsPlaying(false); goToNext()`
  | manualPrev   -- prev button: `setIsPlaying(false); goToPrev()`
  | pill (i : Nat) -- step pill: `setCurrentStep(i); setIsPlaying(false)`
  | narrDone     -- the live narration completes naturally
  | timerFire (k : Nat) -- the k-th pending 3-second timer expires
deriving DecidableEq

/-- One controller event: apply the handler's state updates, then render.
`narrDone` runs the captured completion closure: with the captured
`autoAdvance` on and the captured index below the last, schedule the
3-second timeout (capturing the same environment); otherwise
`setIsPlaying(false)`.  `timerFire` runs the timer callback: its
`if (isPlaying)` guard reads the *captured* `isPlaying`, then the captured
`goToNext` runs. -/
def navStep (len : Nat) (tts : Bool) (s : NavState) : NavEvent → NavState
  | .voicePlay => render len tts { s with isPlaying := true }
  | .voiceStop => render len tts { s with isPlaying := false, narration := none }
  | .voiceNext =>
    render len tts (goToNextF len s.currentStep { s with isPlaying := false, narration := none })
  | .voicePrev =>
    render len tts (goToPrevF s.currentStep { s with isPlaying := false, narration := none })
  | .toggleAuto => render len tts { s with autoAdvance := !s.autoAdvance }
  | .autoOn => render len tts { s with autoAdvance := true, isPlaying := true }
  | .autoOff => render len tts { s with autoAdvance := false }
  | .manualNext => render len tts (goToNextF len s.currentStep { s with isPlaying := false })
  | .manualPrev => render len tts (goToPrevF s.currentStep { s with isPlaying := false })
  | .pill i => render len tts { s with currentStep := i, isPlaying := false }
  | .narrDone =>
    match s.narration with
    | none => s
    | some c =>
      let s1 := { s with narration := none }
      if c.autoAdvance ∧ c.currentStep < len - 1 then
        { s1 with timers := s1.timers ++ [c] }
      else render len tts { s1 with isPlaying := false }
  | .timerFire k =>
    match s.timers[k]? with
    | none => s
    | some c =>
      let s1 := { s with timers := s.timers.eraseIdx k }
      render len tts (if c.isPlaying then goToNextF len c.currentStep s1 else s1)

/-- Run a sequence of controller events. -/
def navRun (len : Nat) (tts : Bool) : NavState → List NavEvent → NavState
  | s, [] => s
  | s, e :: es => navRun len tts (navStep len tts s e) es

/-- Freshly mounted session: step 0, nothing completed, not playing, the
persisted auto-advance preference `auto`; the mount-time effect run (a
no-op since `isPlaying` is false) recorded its dependency snapshot. -/
def navInit (auto : Bool) : NavState :=
  ⟨0, [], auto, false, none, [], some (0, false, auto), []⟩

/-! ## Matcher lemmas -/

/-- A command matches iff one of its lowercased phrases occurs
contiguously in the transcript string. -/
theorem phraseHits_iff (lower : String) (c : Command) :
    phraseHits lower c = true ↔
      ∃ p ∈ c.phrases, ∃ q t, lower.data = q ++ (jsToLower p).data ++ t := by
  simp only [phraseHits, List.any_eq_true, strIncludes_iff]

/-- `firstMatch` returns `some i` exactly when the `i`-th command matches
and no command before it does. -/
theorem firstMatch_eq_some_iff (lower : String) :
    ∀ (cmds : List Command) (i : Nat),
      firstMatch lower cmds = some i ↔
        ∃ pre c post, cmds = pre ++ c :: post ∧ pre.length = i ∧
          phraseHits lower c = true ∧ ∀ c' ∈ pre, phraseHits lower c' = false := by
  intro cmds
  induction cmds with
  | nil =>
    intro i
    simp [firstMatch]
  | cons d cs ih =>
    intro i
    by_cases hd : phraseHits lower d
    · simp only [firstMatch, if_pos hd]
      constructor
      · intro h
        have hi : (0 : Nat) = i := Option.some.inj h
        subst hi
        exact ⟨[], d, cs, rfl, rfl, hd, by simp⟩
      · rintro ⟨pre, c, post, heq, hlen, hc, hall⟩
        cases pre with
        | nil =>
          subst hlen
          rfl
        | cons p ps =>
          exfalso
          simp only [List.cons_append, List.cons.injEq] at heq
          have hp := hall p (by simp)
          rw [heq.1] at hd
          simp [hp] at hd
    · simp only [firstMatch, if_neg hd]
      constructor
      · intro h
        rcases Option.map_eq_some'.mp h with ⟨j, hj, hji⟩
        rcases (ih j).mp hj with ⟨pre, c, post, hcs, hplen, hc, hall⟩
        refine ⟨d :: pre, c, post, by rw [hcs]; rfl, ?_, hc, ?_⟩
        · simp only [List.length_cons, hplen]
          exact hji
        · intro c' hc'
          rcases List.mem_cons.mp hc' with rfl | hmem
          · simpa using hd
          · exact hall c' hmem
      · rintro ⟨pre, c, post, heq, hlen, hc, hall⟩
        cases pre with
        | nil =>
          exfalso
          simp only [List.nil_append, List.cons.injEq] at heq
          rw [heq.1] at hd
          exact hd hc
        | cons p ps =>
          simp only [List.cons_append, List.cons.injEq] at heq
          have hj : firstMatch lower cs = some ps.length :=
            (ih ps.length).mpr ⟨ps, c, post, heq.2, rfl, hc,
              fun c' h' => hall c' (List.mem_cons_of_mem _ h')⟩
          exact Option.map_eq_some'.mpr ⟨ps.length, hj, by simpa using hlen⟩
/-- `firstMatch` returns `none` exactly when no command matches. -/
theorem firstMatch_eq_none_iff (lower : String) :
    ∀ cmds : List Command,
      firstMatch lower cmds = none ↔ ∀ c ∈ cmds, phraseHits lower c = false := by
  intro cmds
  induction cmds with
  | nil => simp [firstMatch]
  | cons d cs ih =>
    by_cases hd : phraseHits lower d <;> simp [firstMatch, hd, ih]

/-- Fire path of `onresult`: non-empty transcript, a matching command, and
the throttle window elapsed. -/
theorem onResult_fire (cmds : List Command) (now : Nat) (current : String)
    (s : RecState) (i : Nat) (h1 : current ≠ "")
    (h2 : firstMatch (jsTrim (jsToLower current)) cmds = some i)
    (h3 : ¬ now - s.lastCommandAt < 400) :
    onResult cmds now current s = (⟨"", now⟩, ⟨some i, true⟩) := by
  simp [onResult, h1, h2, h3]

/-- Any `onresult` invocation within the throttle window of the previous
fire leaves the timestamp untouched and fires nothing; the transcript is
set to the incoming text. -/
theorem onResult_within_window (cmds : List Command) (now : Nat)
    (current : String) (s : RecState) (h : now - s.lastCommandAt < 400) :
    onResult cmds now current s =
      ({ transcript := current, lastCommandAt := s.lastCommandAt }, ⟨none, false⟩) := by
  unfold onResult
  by_cases h1 : current = ""
  · simp [h1]
  · simp only [h1, if_false]
    cases hm : firstMatch (jsTrim (jsToLower current)) cmds <;> simp [h]

/-- No-match (or empty-transcript) invocations fire nothing, request no
engine stop, and leave the timestamp untouched. -/
theorem onResult_noMatch (cmds : List Command) (now : Nat) (current : String)
    (s : RecState) (h : firstMatch (jsTrim (jsToLower current)) cmds = none) :
    onResult cmds now current s =
      ({ transcript := current, lastCommandAt := s.lastCommandAt }, ⟨none, false⟩) := by
  unfold onResult
  by_cases h1 : current = "" <;> simp [h1, h]

theorem runRec_append (cmds : List Command) (l1 l2 : List (Nat × String)) :
    ∀ s : RecState,
      (runRec cmds s (l1 ++ l2)).1 = (runRec cmds (runRec cmds s l1).1 l2).1 ∧
      (runRec cmds s (l1 ++ l2)).2 =
        (runRec cmds s l1).2 ++ (runRec cmds (runRec cmds s l1).1 l2).2 := by
  induction l1 with
  | nil => intro s; simp [runRec]
  | cons e l1 ih =>
    intro s
    simp only [List.cons_append, runRec]
    exact ⟨(ih _).1, by simp [(ih _).2]⟩

/-- A stream of events all lying within the throttle window of the last
fire produces no invocation and never moves the timestamp. -/
theorem runRec_all_within (cmds : List Command) :
    ∀ (es : List (Nat × String)) (s : RecState),
      (∀ e ∈ es, e.1 - s.lastCommandAt < 400) →
      (runRec cmds s es).1.lastCommandAt = s.lastCommandAt ∧
      (runRec cmds s es).2 = [] := by
  intro es
  induction es with
  | nil => intro s _; simp [runRec]
  | cons e es ih =>
    intro s h
    have he := onResult_within_window cmds e.1 e.2 s (h e (by simp))
    have hrest := ih { transcript := e.2, lastCommandAt := s.lastCommandAt }
      (fun e' h' => h e' (by simp [h']))
    simp [runRec, he, hrest.1, hrest.2]

/-- A command fails to match exactly when none of its lowercased phrases
occurs in the transcript. -/
theorem phraseMisses_iff (lower : String) (c : Command) :
    phraseHits lower c = false ↔
      ¬ ∃ p ∈ c.phrases, ∃ q t, lower.data = q ++ (jsToLower p).data ++ t :=
  Bool.eq_false_iff.trans (not_congr (phraseHits_iff lower c))

/-! ## Claim theorems: recognition and matching -/

/-- C4: for every transcript `T` and ordered command list `C`, the matcher
selects exactly the first command in `C`-order having some phrase that
occurs as a contiguous substring (case-insensitive: both sides lowercased;
not exact equality, not tokenized) of the lowercased trimmed `T`; when no
command has a matching phrase, no effect is invoked, no engine stop is
requested, and the matcher's throttle timestamp is unchanged (the working
transcript holds the incoming text, which the handler stored before
matching — it keeps accumulating, per the event, and is not cleared). -/
theorem C4_matcher_selects_first_in_order (cmds : List Command) (now : Nat)
    (current : String) (s : RecState) :
    (∀ i, firstMatch (jsTrim (jsToLower current)) cmds = some i ↔
      ∃ pre c post, cmds = pre ++ c :: post ∧ pre.length = i ∧
        (∃ p ∈ c.phrases, ∃ q t,
          (jsTrim (jsToLower current)).data = q ++ (jsToLower p).data ++ t) ∧
        ∀ c' ∈ pre, ¬ ∃ p ∈ c'.phrases, ∃ q t,
          (jsTrim (jsToLower current)).data = q ++ (jsToLower p).data ++ t)
    ∧ (firstMatch (jsTrim (jsToLower current)) cmds = none →
        onResult cmds now current s =
          ({ transcript := current, lastCommandAt := s.lastCommandAt },
            ⟨none, false⟩)) := by
  refine ⟨?_, onResult_noMatch cmds now current s⟩
  intro i
  rw [firstMatch_eq_some_iff]
  constructor
  · rintro ⟨pre, c, post, h1, h2, h3, h4⟩
    exact ⟨pre, c, post, h1, h2, (phraseHits_iff _ _).mp h3,
      fun c' hm => (phraseMisses_iff _ _).mp (h4 c' hm)⟩
  · rintro ⟨pre, c, post, h1, h2, h3, h4⟩
    exact ⟨pre, c, post, h1, h2, (phraseHits_iff _ _).mpr h3,
      fun c' hm => (phraseMisses_iff _ _).mpr (h4 c' hm)⟩

/-- Witness for C4 at a concrete no-match input. -/
theorem C4_matcher_selects_first_in_order_w :
    onResult [⟨["next", "skip"]⟩] 9999 "tell me something" ⟨"prev", 7⟩ =
      ({ transcript := "tell me something", lastCommandAt := 7 }, ⟨none, false⟩) :=
  (C4_matcher_selects_first_in_order [⟨["next", "skip"]⟩] 9999
    "tell me something" ⟨"prev", 7⟩).2 (by decide)

/-- C5: on every successful, non-throttled match the handler fires exactly
the first-matching command's action (one invocation, no further command
considered for this event), clears the working transcript to the empty
string, records the fire timestamp, and requests `recognition.stop()`
(which, with listening intent still true, leads to the buffer-flushing
restart). -/
theorem C5_fire_clears_transcript_and_restarts (cmds : List Command)
    (now : Nat) (current : String) (s : RecState) (i : Nat)
    (h1 : current ≠ "")
    (h2 : firstMatch (jsTrim (jsToLower current)) cmds = some i)
    (h3 : ¬ now - s.lastCommandAt < 400) :
    onResult cmds now current s = (⟨"", now⟩, ⟨some i, true⟩) :=
  onResult_fire cmds now current s i h1 h2 h3

/-- Witness for C5: the spec's end-to-end scenario — the fragment
`"next step please"` matches the phrase `"next"` of the first command. -/
theorem C5_fire_clears_transcript_and_restarts_w :
    onResult [⟨["next", "skip"]⟩] 5000 "next step please" ⟨"nex", 0⟩ =
      (⟨"", 5000⟩, ⟨some 0, true⟩) :=
  C5_fire_clears_transcript_and_restarts [⟨["next", "skip"]⟩] 5000
    "next step please" ⟨"nex", 0⟩ 0 (by decide) (by decide) (by decide)

/-- C3: a non-throttled fire at time `t1` records that timestamp, and any
second result event within the 400 ms debounce window — whatever it
matches — produces no further invocation: the two events together invoke
exactly one command effect, the first one's. -/
theorem C3_debounce_window_exactly_once (cmds : List Command) (s : RecState)
    (t1 t2 : Nat) (T1 T2 : String) (i : Nat)
    (h1 : T1 ≠ "")
    (hm1 : firstMatch (jsTrim (jsToLower T1)) cmds = some i)
    (hfire : ¬ t1 - s.lastCommandAt < 400)
    (hwin : t2 - t1 < 400) :
    (runRec cmds s [(t1, T1), (t2, T2)]).2 = [i] ∧
    (runRec cmds s [(t1, T1), (t2, T2)]).1.lastCommandAt = t1 := by
  have e1 := onResult_fire cmds t1 T1 s i h1 hm1 hfire
  have e2 := onResult_within_window cmds t2 T2 ⟨"", t1⟩ (by simpa using hwin)
  constructor <;> simp [runRec, e1, e2]

/-- Witness for C3: two matches of the same command 150 ms apart. -/
theorem C3_debounce_window_exactly_once_w :
    (runRec [⟨["next"]⟩] ⟨"", 0⟩ [(1000, "next"), (1150, "next please")]).2 = [0] ∧
    (runRec [⟨["next"]⟩] ⟨"", 0⟩ [(1000, "next"), (1150, "next please")]).1.lastCommandAt
      = 1000 :=
  C3_debounce_window_exactly_once [⟨["next"]⟩] ⟨"", 0⟩ 1000 1150 "next"
    "next please" 0 (by decide) (by decide) (by decide) (by decide)

/-- C10: a throttled match is a complete no-op beyond the suppression: the
handler returns before updating the fire timestamp, clearing the
transcript, or stopping the engine — the working transcript holds the
incoming (uncleared) text.  Consequently a stream of events all inside the
window of the last actual fire leaves the timestamp where it was and fires
nothing, and the first matching event arriving once the window since that
fire has elapsed does fire. -/
theorem C10_throttled_match_frame (cmds : List Command) :
    (∀ (now : Nat) (current : String) (s : RecState) (i : Nat),
      current ≠ "" →
      firstMatch (jsTrim (jsToLower current)) cmds = some i →
      now - s.lastCommandAt < 400 →
      onResult cmds now current s =
        ({ transcript := current, lastCommandAt := s.lastCommandAt }, ⟨none, false⟩))
    ∧ (∀ (es : List (Nat × String)) (s : RecState),
        (∀ e ∈ es, e.1 - s.lastCommandAt < 400) →
        (runRec cmds s es).1.lastCommandAt = s.lastCommandAt ∧
        (runRec cmds s es).2 = [])
    ∧ (∀ (es : List (Nat × String)) (s : RecState) (t : Nat) (T : String) (i : Nat),
        (∀ e ∈ es, e.1 - s.lastCommandAt < 400) →
        T ≠ "" →
        firstMatch (jsTrim (jsToLower T)) cmds = some i →
        ¬ t - s.lastCommandAt < 400 →
        (runRec cmds s (es ++ [(t, T)])).2 = [i]) := by
  refine ⟨fun now current s i _ _ h => onResult_within_window cmds now current s h,
    runRec_all_within cmds, ?_⟩
  intro es s t T i hes hT hm ht
  have hall := runRec_all_within cmds es s hes
  have happ := runRec_append cmds es [(t, T)] s
  have hfire : onResult cmds t T (runRec cmds s es).1 = (⟨"", t⟩, ⟨some i, true⟩) :=
    onResult_fire cmds t T _ i hT hm (by rw [hall.1]; exact ht)
  rw [happ.2, hall.2]
  simp [runRec, hfire]

/-- Witness for C10: a fire at 1000, two suppressed matches, then a fire
at 1400 (the window measured from the un-extended timestamp 1000). -/
theorem C10_throttled_match_frame_w :
    onResult [⟨["next"]⟩] 1200 "next" ⟨"go next", 1000⟩ =
      ({ transcript := "next", lastCommandAt := 1000 }, ⟨none, false⟩) ∧
    (runRec [⟨["next"]⟩] ⟨"", 1000⟩
      [(1100, "next"), (1399, "next"), (1400, "next now")]).2 = [0] := by
  refine ⟨(C10_throttled_match_frame [⟨["next"]⟩]).1 1200 "next" ⟨"go next", 1000⟩ 0
    (by decide) (by decide) (by decide), ?_⟩
  exact (C10_throttled_match_frame [⟨["next"]⟩]).2.2 [(1100, "next"), (1399, "next")]
    ⟨"", 1000⟩ 1400 "next now" 0 (by decide) (by decide) (by decide) (by decide)

/-- C8: a benign engine error (`no-speech` timeout or `aborted`) is
ignored — the listening state is untouched and the session keeps running;
every other error type forces the listening intent off (surfaced as
`isListening = false`), and since the restart intent is cleared the
`onend` handler schedules no automatic retry. -/
theorem C8_error_classification (s : ListenState) (e : String) :
    ((e = "no-speech" ∨ e = "aborted") → onError e s = s)
    ∧ (e ≠ "no-speech" → e ≠ "aborted" →
        (onError e s).isListening = false ∧ (onError e s).shouldListen = false ∧
        onEndRestarts (onError e s) = false) := by
  constructor
  · rintro (rfl | rfl) <;> simp [onError]
  · intro h1 h2
    simp [onError, h1, h2, onEndRestarts]

/-- Witness for C8: a benign and a fatal error at concrete states. -/
theorem C8_error_classification_w :
    onError "no-speech" ⟨true, true⟩ = ⟨true, true⟩ ∧
    (onError "not-allowed" ⟨true, true⟩).isListening = false ∧
    onEndRestarts (onError "not-allowed" ⟨true, true⟩) = false := by
  refine ⟨(C8_error_classification ⟨true, true⟩ "no-speech").1 (Or.inl rfl), ?_, ?_⟩
  · exact ((C8_error_classification ⟨true, true⟩ "not-allowed").2
      (by decide) (by decide)).1
  · exact ((C8_error_classification ⟨true, true⟩ "not-allowed").2
      (by decide) (by decide)).2.2

/-! ## Claim theorems: the narration player -/

/-- A player state whose utterance slot is empty and whose audio elements
are all terminally inactive is fixed by every platform event. -/
theorem pstep_inert (tts : Bool) (s : PlayerState) (h1 : s.liveUtt = none)
    (h2 : ∀ a ∈ s.audios, a.phase = .failed ∨ a.phase = .done ∨ a.phase = .stopped) :
    ∀ e : PEvent, pstep tts s e = s := by
  intro e
  cases e
  case uStart => simp [pstep, h1]
  case uEnd => simp [pstep, h1]
  case uErr => simp [pstep, h1]
  all_goals {
    rename_i i
    simp only [pstep]
    cases ha : s.audios[i]? with
    | none => rfl
    | some a =>
      have hm : a ∈ s.audios := by
        rcases List.getElem?_eq_some.mp ha with ⟨hlt, rfl⟩
        exact List.getElem_mem hlt
      rcases h2 a hm with h | h | h <;> simp [h]
  }

/-- Platform-event runs do not move an inert player state. -/
theorem prun_env_inert (tts : Bool) (s : PlayerState) (h1 : s.liveUtt = none)
    (h2 : ∀ a ∈ s.audios, a.phase = .failed ∨ a.phase = .done ∨ a.phase = .stopped) :
    ∀ es : List PEvent, prun tts s (es.map PAct.env) = s := by
  intro es
  induction es with
  | nil => rfl
  | cons e es ih => simp [prun, pstep_inert tts s h1 h2 e, ih]

/-- C2 fails on the code: `speak("A", cbA, url)` immediately followed by
`speak("B", cbB)` does not leave only B's completion reachable.  The
second `speak`'s internal `stop()` pauses A's audio element while its
`play()` request is still pending, which (per the HTML media spec) rejects
that promise with `AbortError`; the `.catch` installed by the first
`speak` then calls `speakBrowser("A", cbA)` — cancelling B's utterance
(whose callback now never fires) and narrating A again, so the one
`onComplete` that fires is **A's**, not B's (first trace, `fired = [0]`).
With B on the audio backend the same rejection makes the fallback
synthesis of A speak over B's still-playing audio — two texts at once
(second trace).  This contradicts the documented single-speaker /
cancellation-inertness intent. -/
theorem C2_interrupted_speak_resurrects_first :
    (prun true pinit [.call "A" (some 0) (some "u"), .call "B" (some 1) none,
      .env (.aAbort 0), .env .uEnd]).fired = [0]
  ∧ ((prun true pinit [.call "A" (some 0) (some "u"), .call "B" (some 1) (some "v"),
      .env (.aPlay 1), .env (.aAbort 0), .env .uStart]).audios[1]?).map
        (fun a => a.phase) = some .playing
  ∧ (prun true pinit [.call "A" (some 0) (some "u"), .call "B" (some 1) (some "v"),
      .env (.aPlay 1), .env (.aAbort 0), .env .uStart]).liveUtt
        = some ⟨"A", some 0, true⟩ := by
  decide

/-- C7: for a single `speak(text, cb, audioUrl)` whose audio playback
fails — at load (error event plus `play()` rejection), at the play request
(rejection only, e.g. autoplay blocked), or during playback (error event
after `onplay`) — synthesis of `text` is invoked as fallback and `cb`
fires exactly once, on the synthesis completion; whatever platform events
follow, no second invocation of `cb` ever occurs (every error path is
absorbed locally; nothing propagates to the caller). -/
theorem C7_audio_failure_falls_back_once (text : String) (cb : Nat)
    (url : String) (es : List PEvent) :
    ((prun true pinit ([.call text (some cb) (some url), .env (.aFailLoad 0), .env .uEnd]
        ++ es.map PAct.env)).fired = [cb])
  ∧ ((prun true pinit ([.call text (some cb) (some url), .env (.aFailPlayOnly 0), .env .uEnd]
        ++ es.map PAct.env)).fired = [cb])
  ∧ ((prun true pinit ([.call text (some cb) (some url), .env (.aPlay 0),
        .env (.aFailMid 0), .env .uEnd] ++ es.map PAct.env)).fired = [cb]) := by
  have h2 : ∀ a ∈ [(⟨text, some cb, .failed⟩ : AudioElem)],
      a.phase = .failed ∨ a.phase = .done ∨ a.phase = .stopped := by
    intro a ha
    rw [List.mem_singleton] at ha
    subst ha
    exact Or.inl rfl
  refine ⟨?_, ?_, ?_⟩
  · rw [prun_append,
      show prun true pinit [PAct.call text (some cb) (some url),
          .env (.aFailLoad 0), .env .uEnd] =
        (⟨false, [⟨text, some cb, .failed⟩], some 0, none, [cb]⟩ : PlayerState) from rfl,
      prun_env_inert true _ rfl h2 es]
  · rw [prun_append,
      show prun true pinit [PAct.call text (some cb) (some url),
          .env (.aFailPlayOnly 0), .env .uEnd] =
        (⟨false, [⟨text, some cb, .failed⟩], some 0, none, [cb]⟩ : PlayerState) from rfl,
      prun_env_inert true _ rfl h2 es]
  · rw [prun_append,
      show prun true pinit [PAct.call text (some cb) (some url), .env (.aPlay 0),
          .env (.aFailMid 0), .env .uEnd] =
        (⟨false, [⟨text, some cb, .failed⟩], some 0, none, [cb]⟩ : PlayerState) from rfl,
      prun_env_inert true _ rfl h2 es]

/-! ## Claim theorems: the StepNavigator controller -/

/-- When not playing with no live narration, the auto-play effect body
does nothing. -/
theorem effectBody_idle (len : Nat) (tts : Bool) (s : NavState)
    (h1 : s.isPlaying = false) (h2 : s.narration = none) :
    effectBody len tts s = s := by
  unfold effectBody
  rw [h1]
  simp [h2]

/-- A render from a not-playing, not-narrating state only refreshes the
dependency snapshot. -/
theorem render_idle (len : Nat) (tts : Bool) (s : NavState)
    (h1 : s.isPlaying = false) (h2 : s.narration = none) :
    render len tts s = { s with prevDeps := some (navDeps s) } := by
  unfold render
  split
  · next heq => rw [← heq]
  · rw [effectBody_idle len tts s h1 h2]

/-- A render from a not-playing state whose dependencies changed stops any
narration (the effect's `stopSpeaking` branch) and refreshes the
snapshot. -/
theorem render_notPlaying (len : Nat) (tts : Bool) (s : NavState)
    (h1 : s.isPlaying = false) (hne : s.prevDeps ≠ some (navDeps s)) :
    render len tts s = { s with narration := none, prevDeps := some (navDeps s) } := by
  unfold render
  rw [if_neg hne]
  cases hn : s.narration with
  | none => rw [effectBody_idle len tts s h1 hn, ← hn]
  | some c =>
    unfold effectBody
    rw [h1]
    simp [hn]

/-- A render whose dependencies changed runs the effect body. -/
theorem render_run (len : Nat) (tts : Bool) (s : NavState)
    (hne : s.prevDeps ≠ some (navDeps s)) :
    render len tts s = { effectBody len tts s with prevDeps := some (navDeps s) } := by
  unfold render
  rw [if_neg hne]

/-- The effect body in a playing state with a valid step narrates the
current step, capturing this render's values in the completion closure. -/
theorem effectBody_playing (len : Nat) (s : NavState)
    (h1 : s.isPlaying = true) (hk : s.currentStep < len) :
    effectBody len true s =
      { s with narration := some ⟨true, s.currentStep, s.autoAdvance⟩,
               speakLog := s.speakLog ++ [s.currentStep] } := by
  unfold effectBody
  rw [h1]
  simp [hk]

/-- C1 fails on the code: with `steps = [S0, S1]`, auto-advance on and the
session AutoPlaying at step 0, after narration of S0 completes and a stop
command arrives during the 3-second pause, the un-cancelled timer still
fires.  Its `if (isPlaying)` guard reads the *captured* value — `true` in
every render whose effect starts narration, so the guard never blocks —
and the cursor advances to S1 (`currentStep = 1`) despite the stop.  (The
other half of the claim does hold in this run: the stopped session's
effect does not narrate S1, so the speak log stays `[0]`, and the session
ends not playing.)  This contradicts the source's own
`// Check if still playing` comment. -/
theorem C1_stop_during_pause_still_advances :
    (navRun 2 true (navInit true)
      [.voicePlay, .narrDone, .voiceStop, .timerFire 0]).currentStep = 1
  ∧ (navRun 2 true (navInit true)
      [.voicePlay, .narrDone, .voiceStop, .timerFire 0]).speakLog = [0]
  ∧ (navRun 2 true (navInit true)
      [.voicePlay, .narrDone, .voiceStop, .timerFire 0]).isPlaying = false := by
  decide

/-- Counterexample to C6 as stated: toggling auto-advance off while
AutoPlaying with narration of step 0 in progress *does* restart that
narration.  `autoAdvance` is in the auto-play effect's dependency list, so
the toggle re-runs the effect, whose `readCurrentStep` issues a fresh
`speak` of step 0: the speak log after `[voicePlay, toggleAuto]` is
`[0, 0]` where the claim (`"narration … not stopped (and not
restarted)"`) requires it to remain `[0]` (as it is after `[voicePlay]`
alone — second conjunct). -/
theorem C6_toggle_restarts_narration_cx :
    (navRun 2 true (navInit true) [.voicePlay, .toggleAuto]).speakLog = [0, 0]
  ∧ (navRun 2 true (navInit true) [.voicePlay]).speakLog = [0] := by
  decide

/-- C6 (amended): toggling the auto-advance preference off while the
session is AutoPlaying with narration of the current step in progress
re-triggers (restarts) that step's narration — the preference is a
dependency of the narration effect — and leaves the cursor and AutoPlaying
state unchanged; when the (restarted) narration completes, the controller
exits AutoPlaying without advancing the cursor and schedules no
auto-advance timer. -/
theorem C6_toggle_off_exits_autoplay (len k : Nat) (comp : List Nat)
    (c : Captured) (tms : List Captured) (log : List Nat) (hk : k < len) :
    (navStep len true (⟨k, comp, true, true, some c, tms, some (k, true, true), log⟩ :
        NavState) .toggleAuto).speakLog = log ++ [k]
  ∧ navStep len true (navStep len true (⟨k, comp, true, true, some c, tms,
        some (k, true, true), log⟩ : NavState) .toggleAuto) .narrDone
      = ⟨k, comp, false, false, none, tms, some (k, false, false), log ++ [k]⟩ := by
  have hne1 : (⟨k, comp, false, true, some c, tms, some (k, true, true), log⟩ :
        NavState).prevDeps
      ≠ some (navDeps ⟨k, comp, false, true, some c, tms, some (k, true, true), log⟩) := by
    simp [navDeps]
  have e1 : navStep len true (⟨k, comp, true, true, some c, tms,
        some (k, true, true), log⟩ : NavState) .toggleAuto
      = (⟨k, comp, false, true, some ⟨true, k, false⟩, tms,
          some (k, true, false), log ++ [k]⟩ : NavState) := by
    show render len true (⟨k, comp, false, true, some c, tms,
        some (k, true, true), log⟩ : NavState) = _
    rw [render_run len true _ hne1, effectBody_playing len _ rfl hk]
    rfl
  refine ⟨by rw [e1], ?_⟩
  rw [e1]
  have hne2 : (⟨k, comp, false, false, none, tms,
        some (k, true, false), log ++ [k]⟩ : NavState).prevDeps
      ≠ some (navDeps ⟨k, comp, false, false, none, tms,
        some (k, true, false), log ++ [k]⟩) := by
    simp [navDeps]
  show render len true (⟨k, comp, false, false, none, tms,
      some (k, true, false), log ++ [k]⟩ : NavState) = _
  rw [render_notPlaying len true _ rfl hne2]
  rfl

/-- Witness for C6 (amended) at a concrete session. -/
theorem C6_toggle_off_exits_autoplay_w :
    (navStep 2 true (⟨0, [], true, true, some ⟨true, 0, true⟩, [],
        some (0, true, true), []⟩ : NavState) .toggleAuto).speakLog = [0]
  ∧ navStep 2 true (navStep 2 true (⟨0, [], true, true, some ⟨true, 0, true⟩, [],
        some (0, true, true), []⟩ : NavState) .toggleAuto) .narrDone
      = ⟨0, [], false, false, none, [], some (0, false, false), [0]⟩ :=
  C6_toggle_off_exits_autoplay 2 0 [] ⟨true, 0, true⟩ [] [] (by decide)

/-- C9: from any (rendered) session state, voice-triggered and manual
`goToNext`/`goToPrev` move the step index by ±1 clamped to
`[0, lastIndex]` (a no-op on the index at the respective boundary), leave
no narration in progress — the voice actions call `stopSpeaking()`
directly, the manual buttons stop playing and the re-run effect's
`stopSpeaking` branch halts any narration — and start no narration
themselves (the speak log is unchanged).  The manual cases carry the
guards under which the source enables the buttons (`disabled` at the
boundaries). -/
theorem C9_next_prev_clamped_no_narration (len k : Nat) (comp : List Nat)
    (auto playing : Bool) (narr : Option Captured) (tms : List Captured) (log : List Nat) :
    ((navStep len true (⟨k, comp, auto, playing, narr, tms, some (k, playing, auto), log⟩ :
          NavState) .voiceNext).currentStep = (if k < len - 1 then k + 1 else k)
      ∧ (navStep len true (⟨k, comp, auto, playing, narr, tms, some (k, playing, auto), log⟩ :
          NavState) .voiceNext).narration = none
      ∧ (navStep len true (⟨k, comp, auto, playing, narr, tms, some (k, playing, auto), log⟩ :
          NavState) .voiceNext).speakLog = log)
  ∧ ((navStep len true (⟨k, comp, auto, playing, narr, tms, some (k, playing, auto), log⟩ :
          NavState) .voicePrev).currentStep = (if 0 < k then k - 1 else k)
      ∧ (navStep len true (⟨k, comp, auto, playing, narr, tms, some (k, playing, auto), log⟩ :
          NavState) .voicePrev).narration = none
      ∧ (navStep len true (⟨k, comp, auto, playing, narr, tms, some (k, playing, auto), log⟩ :
          NavState) .voicePrev).speakLog = log)
  ∧ (k < len - 1 →
      (navStep len true (⟨k, comp, auto, playing, narr, tms, some (k, playing, auto), log⟩ :
          NavState) .manualNext).currentStep = k + 1
      ∧ (navStep len true (⟨k, comp, auto, playing, narr, tms, some (k, playing, auto), log⟩ :
          NavState) .manualNext).narration = none
      ∧ (navStep len true (⟨k, comp, auto, playing, narr, tms, some (k, playing, auto), log⟩ :
          NavState) .manualNext).speakLog = log)
  ∧ (0 < k →
      (navStep len true (⟨k, comp, auto, playing, narr, tms, some (k, playing, auto), log⟩ :
          NavState) .manualPrev).currentStep = k - 1
      ∧ (navStep len true (⟨k, comp, auto, playing, narr, tms, some (k, playing, auto), log⟩ :
          NavState) .manualPrev).narration = none
      ∧ (navStep len true (⟨k, comp, auto, playing, narr, tms, some (k, playing, auto), log⟩ :
          NavState) .manualPrev).speakLog = log) := by
  refine ⟨?_, ?_, ?_, ?_⟩
  · refine ⟨?_, ?_, ?_⟩ <;>
      (by_cases hlt : k < len - 1 <;> simp [navStep, goToNextF, hlt, render_idle])
  · refine ⟨?_, ?_, ?_⟩ <;>
      (by_cases h0 : 0 < k <;> simp [navStep, goToPrevF, h0, render_idle])
  · intro hlt
    have hne : (⟨k + 1, comp, auto, false, narr, tms, some (k, playing, auto), log⟩ :
          NavState).prevDeps
        ≠ some (navDeps ⟨k + 1, comp, auto, false, narr, tms, some (k, playing, auto), log⟩) := by
      simp [navDeps]
    have e1 : navStep len true (⟨k, comp, auto, playing, narr, tms,
          some (k, playing, auto), log⟩ : NavState) .manualNext
        = (⟨k + 1, comp, auto, false, none, tms,
            some (k + 1, false, auto), log⟩ : NavState) := by
      show render len true (goToNextF len k (⟨k, comp, auto, false, narr, tms,
          some (k, playing, auto), log⟩ : NavState)) = _
      unfold goToNextF
      rw [if_pos hlt, render_notPlaying len true _ rfl hne]
      rfl
    rw [e1]
    exact ⟨rfl, rfl, rfl⟩
  · intro h0
    have hne : (⟨k - 1, comp, auto, false, narr, tms, some (k, playing, auto), log⟩ :
          NavState).prevDeps
        ≠ some (navDeps ⟨k - 1, comp, auto, false, narr, tms, some (k, playing, auto), log⟩) := by
      simp only [navDeps, ne_eq, Option.some.injEq, Prod.mk.injEq, not_and]
      intro h
      omega
    have e1 : navStep len true (⟨k, comp, auto, playing, narr, tms,
          some (k, playing, auto), log⟩ : NavState) .manualPrev
        = (⟨k - 1, comp, auto, false, none, tms,
            some (k - 1, false, auto), log⟩ : NavState) := by
      show render len true (goToPrevF k (⟨k, comp, auto, false, narr, tms,
          some (k, playing, auto), log⟩ : NavState)) = _
      unfold goToPrevF
      rw [if_pos h0, render_notPlaying len true _ rfl hne]
      rfl
    rw [e1]
    exact ⟨rfl, rfl, rfl⟩

/-- Witness for C9: a three-step session at index 1, AutoPlaying with a
live narration; all four navigation operations behave as claimed. -/
theorem C9_next_prev_clamped_no_narration_w :
    (navStep 3 true (⟨1, [], true, true, some ⟨true, 1, true⟩, [],
        some (1, true, true), []⟩ : NavState) .voiceNext).currentStep = 2
  ∧ (navStep 3 true (⟨1, [], true, true, some ⟨true, 1, true⟩, [],
        some (1, true, true), []⟩ : NavState) .voicePrev).currentStep = 0
  ∧ (navStep 3 true (⟨1, [], true, true, some ⟨true, 1, true⟩, [],
        some (1, true, true), []⟩ : NavState) .manualNext).currentStep = 2
  ∧ (navStep 3 true (⟨1, [], true, true, some ⟨true, 1, true⟩, [],
        some (1, true, true), []⟩ : NavState) .manualNext).narration = none
  ∧ (navStep 3 true (⟨1, [], true, true, some ⟨true, 1, true⟩, [],
        some (1, true, true), []⟩ : NavState) .manualPrev).currentStep = 0 := by
  have h := C9_next_prev_clamped_no_narration 3 1 [] true true
    (some ⟨true, 1, true⟩) [] []
  refine ⟨by simpa using h.1.1, by simpa using h.2.1.1, ?_, ?_, ?_⟩
  · exact (h.2.2.1 (by decide)).1
  · exact (h.2.2.1 (by decide)).2.1
  · exact (h.2.2.2 (by decide)).1

end Foodly
